import Mathlib

/-!
Verification development for the 7on-next orchestration layer.

This file gives a shallow embedding of the parts of the codebase that the
spec's testable properties talk about: the legacy-table migration
(`postgres-setup.ts` / `ethical-migration.ts`), the ethical-profile
recomputation (`ethical-migration.ts`, profile recalculate POST), the memory
CRUD route handlers (`api/memories/route.ts`, `lib/vector-memory.ts`), the
gating fallback (`api/memories/route.ts` POST and the n8n conversation
webhook), the provisioning monitor (`provision-northflank/route.ts`), and the
training background monitor (`api/lora/train/route.ts`).

SQL tables are modelled as Lean lists of rows, numeric scores as rationals,
external HTTP calls as explicit call-result parameters, and the detached
polling loops as total functions over a trace of probe results with the
attempt budget from the source as fuel.
-/

namespace SevenOn

/-! ## Legacy migration (`migrateLegacyData`, `migrateGoodChannel` et al.)

Each legacy table row carries the `migrated_to_interaction_memory` flag.
A migration pass inserts a converted `interaction_memories` row for exactly
the rows `WHERE migrated_to_interaction_memory = FALSE` and then flips the
flag to `TRUE` for those same rows. -/

structure LegacyRow where
  rowId : Nat
  userId : String
  text : String
  /-- the `migrated_to_interaction_memory` column -/
  migrated : Bool
  /-- the per-channel approval column (`approved_for_consolidation` etc.) -/
  approved : Bool
  deriving DecidableEq, Repr

inductive LegacyChannel
  | good
  | bad
  | review
  | mcl
  deriving DecidableEq, Repr

/-- Target `classification` value of each legacy channel, as in the four
`INSERT ... SELECT` statements of the migration. -/
def channelClassification : LegacyChannel → String
  | .good => "growth_memory"
  | .bad => "challenge_memory"
  | .review => "neutral_interaction"
  | .mcl => "wisdom_moment"

/-- `training_weight` constant used by each channel's migration insert. -/
def channelTrainingWeight : LegacyChannel → ℚ
  | .good => 3 / 2
  | .bad => 2
  | .review => 1 / 2
  | .mcl => 5 / 2

/-- An `interaction_memories` row produced by migration, with provenance:
which legacy channel and which source row it was converted from. -/
structure MigratedMemRow where
  srcChannel : LegacyChannel
  srcRow : LegacyRow
  classification : String
  trainingWeight : ℚ
  deriving DecidableEq, Repr

def convertLegacyRow (ch : LegacyChannel) (r : LegacyRow) : MigratedMemRow :=
  { srcChannel := ch
    srcRow := r
    classification := channelClassification ch
    trainingWeight := channelTrainingWeight ch }

/-- The four legacy tables plus the `interaction_memories` table. -/
structure MigrationState where
  stmGood : List LegacyRow
  stmBad : List LegacyRow
  stmReview : List LegacyRow
  mclChains : List LegacyRow
  interactionMemories : List MigratedMemRow
  deriving DecidableEq, Repr

/-- Rows inserted from one legacy table by one migration pass:
the `INSERT ... SELECT ... WHERE migrated_to_interaction_memory = FALSE`. -/
def tableInserts (ch : LegacyChannel) (t : List LegacyRow) : List MigratedMemRow :=
  (t.filter (fun r => !r.migrated)).map (convertLegacyRow ch)

/-- The `UPDATE ... SET migrated_to_interaction_memory = TRUE
WHERE migrated_to_interaction_memory = FALSE` step (net effect: every row
of the table ends with the flag set). -/
def markMigrated (t : List LegacyRow) : List LegacyRow :=
  t.map (fun r => { r with migrated := true })

/-- All `interaction_memories` rows inserted by one run of the migration. -/
def migrationInserts (s : MigrationState) : List MigratedMemRow :=
  tableInserts .good s.stmGood ++ tableInserts .bad s.stmBad ++
    tableInserts .review s.stmReview ++ tableInserts .mcl s.mclChains

/-- One run of `migrateLegacyData`: insert the unmigrated rows of each of the
four legacy tables into `interaction_memories`, then set their flags. -/
def migrateLegacyData (s : MigrationState) : MigrationState :=
  { stmGood := markMigrated s.stmGood
    stmBad := markMigrated s.stmBad
    stmReview := markMigrated s.stmReview
    mclChains := markMigrated s.mclChains
    interactionMemories := s.interactionMemories ++ migrationInserts s }

lemma tableInserts_srcRow_not_migrated (ch : LegacyChannel) (t : List LegacyRow) :
    (tableInserts ch t).all (fun m => !m.srcRow.migrated) = true := by
  simp only [tableInserts, List.all_eq_true, List.mem_map, List.mem_filter]
  rintro m ⟨r, ⟨hr, hflag⟩, rfl⟩
  simpa [convertLegacyRow] using hflag

lemma tableInserts_markMigrated (ch : LegacyChannel) (t : List LegacyRow) :
    tableInserts ch (markMigrated t) = [] := by
  induction t with
  | nil => rfl
  | cons r rest ih =>
      simp only [tableInserts, markMigrated, List.map_cons, List.filter] at ih ⊢
      simp only [Bool.not_true]
      exact ih

/-- Claim C1: legacy-table migration is idempotent via the `migrated` flag.
Every `interaction_memories` row inserted by a migration run originates from
a legacy row whose `migrated_to_interaction_memory` flag was `FALSE` (so a
row already marked `TRUE` — e.g. by a previous, possibly partial, run —
never receives a second insert), and a second full run after a completed run
inserts nothing at all. -/
theorem migrateLegacyData_flag_idempotent (s : MigrationState) :
    (migrationInserts s).all (fun m => !m.srcRow.migrated) = true
    ∧ migrationInserts (migrateLegacyData s) = []
    ∧ (migrateLegacyData (migrateLegacyData s)).interactionMemories
        = (migrateLegacyData s).interactionMemories := by
  refine ⟨?_, ?_, ?_⟩
  · simp only [migrationInserts, List.all_append, Bool.and_eq_true]
    exact ⟨⟨⟨tableInserts_srcRow_not_migrated _ _, tableInserts_srcRow_not_migrated _ _⟩,
      tableInserts_srcRow_not_migrated _ _⟩, tableInserts_srcRow_not_migrated _ _⟩
  · simp [migrationInserts, migrateLegacyData, tableInserts_markMigrated]
  · simp [migrateLegacyData, migrationInserts, tableInserts_markMigrated]

/-! ## Ethical profile recomputation (`ethical-migration.ts`, profile
recalculate POST)

The recalculation reads all `interaction_memories` rows of a user, averages
each of the seven dimension scores, derives the growth stage from the mean of
the seven averages, and overwrites the profile row with these full
aggregates. Scores are modelled as rationals. -/

structure EthicalScores where
  selfAwareness : ℚ
  emotionalRegulation : ℚ
  compassion : ℚ
  integrity : ℚ
  growthMindset : ℚ
  wisdom : ℚ
  transcendence : ℚ
  deriving DecidableEq, Repr

structure InteractionMemory where
  userId : String
  text : String
  classification : String
  ethicalScores : EthicalScores
  deriving DecidableEq, Repr

/-- The profile columns written by the recalculation (timestamp columns such
as `updated_at` are not part of the recomputed aggregate data). -/
structure EthicalProfile where
  selfAwareness : ℚ
  emotionalRegulation : ℚ
  compassion : ℚ
  integrity : ℚ
  growthMindset : ℚ
  wisdom : ℚ
  transcendence : ℚ
  growthStage : ℕ
  totalInteractions : ℕ
  breakthroughMoments : ℕ
  deriving DecidableEq, Repr

/-- `AVG((ethical_scores->>'...')::float)` over a user's memories. -/
def avgScoreBy (f : EthicalScores → ℚ) (ms : List InteractionMemory) : ℚ :=
  (ms.map (fun m => f m.ethicalScores)).sum / (ms.length : ℚ)

/-- Growth-stage thresholds from the recalculation handlers:
`< 0.3 → 1, < 0.5 → 2, < 0.7 → 3, < 0.85 → 4, else 5`. -/
def growthStageOf (avgScore : ℚ) : ℕ :=
  if avgScore < 3 / 10 then 1
  else if avgScore < 1 / 2 then 2
  else if avgScore < 7 / 10 then 3
  else if avgScore < 17 / 20 then 4
  else 5

/-- The profile-recalculate POST aggregate: `none` when the user has no
memories (the handler answers "No interactions found" and writes nothing);
otherwise the full-aggregate profile row that gets written. The
`breakthrough_moments` counter is the count of `wisdom_moment` rows. -/
def recalcProfile (ms : List InteractionMemory) : Option EthicalProfile :=
  if ms.length = 0 then none
  else
    let a1 := avgScoreBy (fun sc => sc.selfAwareness) ms
    let a2 := avgScoreBy (fun sc => sc.emotionalRegulation) ms
    let a3 := avgScoreBy (fun sc => sc.compassion) ms
    let a4 := avgScoreBy (fun sc => sc.integrity) ms
    let a5 := avgScoreBy (fun sc => sc.growthMindset) ms
    let a6 := avgScoreBy (fun sc => sc.wisdom) ms
    let a7 := avgScoreBy (fun sc => sc.transcendence) ms
    let avgScore := (a1 + a2 + a3 + a4 + a5 + a6 + a7) / 7
    some
      { selfAwareness := a1
        emotionalRegulation := a2
        compassion := a3
        integrity := a4
        growthMindset := a5
        wisdom := a6
        transcendence := a7
        growthStage := growthStageOf avgScore
        totalInteractions := ms.length
        breakthroughMoments :=
          (ms.filter (fun m => m.classification == "wisdom_moment")).length }

/-- A user's per-tenant database state as seen by the recalculation:
the memory set it aggregates over and the profile row it overwrites. -/
structure UserDbState where
  memories : List InteractionMemory
  profile : EthicalProfile
  deriving DecidableEq, Repr

/-- The profile-recalculate POST: recompute the aggregates over the user's
memories and overwrite the profile row (no write when there are none). -/
def profileRecalculatePOST (s : UserDbState) : UserDbState :=
  match recalcProfile s.memories with
  | none => s
  | some p => { s with profile := p }

lemma profileRecalculatePOST_memories (s : UserDbState) :
    (profileRecalculatePOST s).memories = s.memories := by
  unfold profileRecalculatePOST
  cases recalcProfile s.memories <;> rfl

/-- Claim C4: profile recomputation is idempotent. For a fixed set of
`interaction_memories` rows, running the recalculate operation twice writes
exactly the same dimension scores, growth stage and interaction counters as
running it once, because every field is a full aggregate over the memory set
rather than an increment of the previous profile value. -/
theorem profileRecalculatePOST_idempotent (s : UserDbState) :
    profileRecalculatePOST (profileRecalculatePOST s) = profileRecalculatePOST s := by
  cases h : recalcProfile s.memories with
  | none => simp [profileRecalculatePOST, h]
  | some p =>
      have h1 : profileRecalculatePOST s = { s with profile := p } := by
        simp [profileRecalculatePOST, h]
      rw [h1]
      simp [profileRecalculatePOST, h]

/-- Decidable check that a single score lies in the closed interval [0,1]. -/
def scoreInUnit (x : ℚ) : Bool :=
  decide (0 ≤ x) && decide (x ≤ 1)

def scoresInUnit (sc : EthicalScores) : Bool :=
  scoreInUnit sc.selfAwareness && scoreInUnit sc.emotionalRegulation &&
    scoreInUnit sc.compassion && scoreInUnit sc.integrity &&
    scoreInUnit sc.growthMindset && scoreInUnit sc.wisdom &&
    scoreInUnit sc.transcendence

def profileDimsInUnit (p : EthicalProfile) : Bool :=
  scoreInUnit p.selfAwareness && scoreInUnit p.emotionalRegulation &&
    scoreInUnit p.compassion && scoreInUnit p.integrity &&
    scoreInUnit p.growthMindset && scoreInUnit p.wisdom &&
    scoreInUnit p.transcendence

lemma one_le_growthStageOf (a : ℚ) : 1 ≤ growthStageOf a := by
  unfold growthStageOf
  split_ifs <;> norm_num

lemma growthStageOf_le_five (a : ℚ) : growthStageOf a ≤ 5 := by
  unfold growthStageOf
  split_ifs <;> norm_num

lemma growthStageOf_mono {a b : ℚ} (hab : a ≤ b) :
    growthStageOf a ≤ growthStageOf b := by
  unfold growthStageOf
  split_ifs <;> first | omega | linarith

lemma scoreInUnit_eq_true {x : ℚ} :
    scoreInUnit x = true ↔ 0 ≤ x ∧ x ≤ 1 := by
  simp [scoreInUnit]

lemma avgScoreBy_in_unit (f : EthicalScores → ℚ) (ms : List InteractionMemory)
    (hne : ms ≠ [])
    (h : ∀ m ∈ ms, 0 ≤ f m.ethicalScores ∧ f m.ethicalScores ≤ 1) :
    0 ≤ avgScoreBy f ms ∧ avgScoreBy f ms ≤ 1 := by
  have hlen : 0 < (ms.length : ℚ) := by
    have : 0 < ms.length := List.length_pos.mpr hne
    exact_mod_cast this
  have hsum0 : 0 ≤ (ms.map (fun m => f m.ethicalScores)).sum := by
    apply List.sum_nonneg
    intro x hx
    obtain ⟨m, hm, rfl⟩ := List.mem_map.mp hx
    exact (h m hm).1
  have hsum1 : (ms.map (fun m => f m.ethicalScores)).sum ≤ (ms.length : ℚ) := by
    have hb : ∀ x ∈ ms.map (fun m => f m.ethicalScores), x ≤ (1 : ℚ) := by
      intro x hx
      obtain ⟨m, hm, rfl⟩ := List.mem_map.mp hx
      exact (h m hm).2
    calc (ms.map (fun m => f m.ethicalScores)).sum
        ≤ (ms.map (fun m => f m.ethicalScores)).length • (1 : ℚ) :=
          List.sum_le_card_nsmul _ _ hb
      _ = (ms.length : ℚ) := by simp [nsmul_eq_mul]
  unfold avgScoreBy
  constructor
  · exact div_nonneg hsum0 (le_of_lt hlen)
  · rw [div_le_one hlen]
    exact hsum1

/-- Claim C8: every recomputed growth stage lies in 1..5 and is a monotone
deterministic function of the mean of the seven aggregate dimension scores
(thresholds 0.3, 0.5, 0.7, 0.85); and when every per-memory dimension score
lies in [0,1], the seven dimension scores written to the profile lie in
[0,1] as well. -/
theorem recalcProfile_stage_and_bounds (a b : ℚ) (ms : List InteractionMemory)
    (p : EthicalProfile) :
    (1 ≤ growthStageOf a ∧ growthStageOf a ≤ 5)
    ∧ (a ≤ b → growthStageOf a ≤ growthStageOf b)
    ∧ (ms.all (fun m => scoresInUnit m.ethicalScores) = true →
        recalcProfile ms = some p →
        profileDimsInUnit p = true ∧ 1 ≤ p.growthStage ∧ p.growthStage ≤ 5) := by
  refine ⟨⟨one_le_growthStageOf a, growthStageOf_le_five a⟩,
    fun hab => growthStageOf_mono hab, fun hall hrec => ?_⟩
  have hne : ms ≠ [] := by
    intro hnil
    rw [hnil] at hrec
    simp [recalcProfile] at hrec
  have hbounds : ∀ cf : EthicalScores → ℚ, (∀ sc, scoresInUnit sc = true →
      0 ≤ cf sc ∧ cf sc ≤ 1) →
      0 ≤ avgScoreBy cf ms ∧ avgScoreBy cf ms ≤ 1 := by
    intro cf hcf
    apply avgScoreBy_in_unit cf ms hne
    intro m hm
    have := List.all_eq_true.mp hall m hm
    exact hcf m.ethicalScores this
  have hlen : ¬ ms.length = 0 := by
    simpa [List.length_eq_zero] using hne
  have hp : p =
      { selfAwareness := avgScoreBy (fun sc => sc.selfAwareness) ms
        emotionalRegulation := avgScoreBy (fun sc => sc.emotionalRegulation) ms
        compassion := avgScoreBy (fun sc => sc.compassion) ms
        integrity := avgScoreBy (fun sc => sc.integrity) ms
        growthMindset := avgScoreBy (fun sc => sc.growthMindset) ms
        wisdom := avgScoreBy (fun sc => sc.wisdom) ms
        transcendence := avgScoreBy (fun sc => sc.transcendence) ms
        growthStage := growthStageOf
          ((avgScoreBy (fun sc => sc.selfAwareness) ms +
            avgScoreBy (fun sc => sc.emotionalRegulation) ms +
            avgScoreBy (fun sc => sc.compassion) ms +
            avgScoreBy (fun sc => sc.integrity) ms +
            avgScoreBy (fun sc => sc.growthMindset) ms +
            avgScoreBy (fun sc => sc.wisdom) ms +
            avgScoreBy (fun sc => sc.transcendence) ms) / 7)
        totalInteractions := ms.length
        breakthroughMoments :=
          (ms.filter (fun m => m.classification == "wisdom_moment")).length } := by
    unfold recalcProfile at hrec
    rw [if_neg hlen] at hrec
    exact (Option.some.inj hrec).symm
  subst hp
  refine ⟨?_, one_le_growthStageOf _, growthStageOf_le_five _⟩
  simp only [profileDimsInUnit, Bool.and_eq_true, scoreInUnit_eq_true]
  have h1 := hbounds (fun sc => sc.selfAwareness) (by
    intro sc hsc
    simp only [scoresInUnit, Bool.and_eq_true, scoreInUnit_eq_true] at hsc
    exact hsc.1.1.1.1.1.1)
  have h2 := hbounds (fun sc => sc.emotionalRegulation) (by
    intro sc hsc
    simp only [scoresInUnit, Bool.and_eq_true, scoreInUnit_eq_true] at hsc
    exact hsc.1.1.1.1.1.2)
  have h3 := hbounds (fun sc => sc.compassion) (by
    intro sc hsc
    simp only [scoresInUnit, Bool.and_eq_true, scoreInUnit_eq_true] at hsc
    exact hsc.1.1.1.1.2)
  have h4 := hbounds (fun sc => sc.integrity) (by
    intro sc hsc
    simp only [scoresInUnit, Bool.and_eq_true, scoreInUnit_eq_true] at hsc
    exact hsc.1.1.1.2)
  have h5 := hbounds (fun sc => sc.growthMindset) (by
    intro sc hsc
    simp only [scoresInUnit, Bool.and_eq_true, scoreInUnit_eq_true] at hsc
    exact hsc.1.1.2)
  have h6 := hbounds (fun sc => sc.wisdom) (by
    intro sc hsc
    simp only [scoresInUnit, Bool.and_eq_true, scoreInUnit_eq_true] at hsc
    exact hsc.1.2)
  have h7 := hbounds (fun sc => sc.transcendence) (by
    intro sc hsc
    simp only [scoresInUnit, Bool.and_eq_true, scoreInUnit_eq_true] at hsc
    exact hsc.2)
  exact ⟨⟨⟨⟨⟨⟨h1, h2⟩, h3⟩, h4⟩, h5⟩, h6⟩, h7⟩

/-- A concrete one-memory set used to witness claim C8. -/
def exMemoryC8 : InteractionMemory :=
  { userId := "user-1"
    text := "sample"
    classification := "wisdom_moment"
    ethicalScores :=
      { selfAwareness := 1 / 2
        emotionalRegulation := 1 / 2
        compassion := 1 / 2
        integrity := 1 / 2
        growthMindset := 1 / 2
        wisdom := 1 / 2
        transcendence := 3 / 10 } }

/-- Profile produced by recalculation over `[exMemoryC8]`. -/
def exProfileC8 : EthicalProfile :=
  { selfAwareness := 1 / 2
    emotionalRegulation := 1 / 2
    compassion := 1 / 2
    integrity := 1 / 2
    growthMindset := 1 / 2
    wisdom := 1 / 2
    transcendence := 3 / 10
    growthStage := 2
    totalInteractions := 1
    breakthroughMoments := 1 }

theorem recalcProfile_stage_and_bounds_witness :
    growthStageOf 0 ≤ growthStageOf 1
    ∧ (profileDimsInUnit exProfileC8 = true
        ∧ 1 ≤ exProfileC8.growthStage ∧ exProfileC8.growthStage ≤ 5) :=
  ⟨(recalcProfile_stage_and_bounds 0 1 [exMemoryC8] exProfileC8).2.1 (by norm_num),
   (recalcProfile_stage_and_bounds 0 1 [exMemoryC8] exProfileC8).2.2
     (by norm_num [exMemoryC8, scoresInUnit, scoreInUnit])
     (by norm_num [recalcProfile, avgScoreBy, growthStageOf, exMemoryC8, exProfileC8])⟩

/-! ## Provisioning monitor (`monitorN8nDeployment`)

The monitor polls the template run in a loop guarded by
`Date.now() - startTime < maxWaitTime` with a fixed 30-second sleep at the
end of each iteration, so at most `maxWaitTime / fastPollInterval`
iterations run. Each iteration's external observations are modelled as a
probe: the project id lookup, the N8N_HOST lookup, and whether the
post-discovery finalization (the final database write path) succeeds. An
iteration that throws is a probe with no results (the error is caught, the
loop sleeps and continues). When the loop exits without having reached the
hostname-found return, the status is persisted as `timeout` with the
error string recorded. -/

/-- `maxWaitTime = 900000` ms (15 minutes). -/
def maxWaitTime : ℕ := 900000

/-- `fastPollInterval = 30000` ms (30 seconds). -/
def fastPollInterval : ℕ := 30000

def timeoutErrorMsg : String := "N8N_HOST not available within time limit"

inductive ProvisionStatus
  | initiated
  | deploying
  | ready
  | manual
  | failed
  | timeout
  deriving DecidableEq, Repr

/-- External observations available to one iteration of the monitor loop. -/
structure DeployProbe where
  projectId : Option String
  n8nHost : Option String
  finalizeOk : Bool
  deriving DecidableEq, Repr

/-- Final persisted result of the monitor: the tenant's provisioning status,
the recorded setup error, and how many poll sleeps were performed. -/
structure MonitorOutcome where
  status : ProvisionStatus
  setupError : Option String
  polls : ℕ
  deriving DecidableEq, Repr

/-- The monitor loop body over the remaining probes. `projectId` is the
mutable phase-1 result; `polls` counts completed 30-second sleeps. -/
def monitorGo : List DeployProbe → Option String → ℕ → MonitorOutcome
  | [], _, polls => ⟨.timeout, some timeoutErrorMsg, polls⟩
  | p :: rest, pid?, polls =>
    match pid?.or p.projectId with
    | none => monitorGo rest none (polls + 1)
    | some pid =>
      match p.n8nHost with
      | some _ =>
        if p.finalizeOk then ⟨.ready, none, polls⟩
        else ⟨.timeout, some timeoutErrorMsg, polls + 1⟩
      | none => monitorGo rest (some pid) (polls + 1)

/-- `monitorN8nDeployment` as a function of the trace of per-iteration
probe results: the loop guard admits exactly
`maxWaitTime / fastPollInterval` iterations. -/
def monitorN8nDeployment (trace : ℕ → DeployProbe) : MonitorOutcome :=
  monitorGo ((List.range (maxWaitTime / fastPollInterval)).map trace) none 0

lemma monitorGo_spec (ps : List DeployProbe) : ∀ (pid? : Option String) (polls : ℕ),
    ((monitorGo ps pid? polls).status = .ready
      ∨ ((monitorGo ps pid? polls).status = .timeout
          ∧ (monitorGo ps pid? polls).setupError = some timeoutErrorMsg))
    ∧ (monitorGo ps pid? polls).polls ≤ polls + ps.length
    ∧ (ps.all (fun p => p.n8nHost.isNone) = true →
        (monitorGo ps pid? polls).status = .timeout) := by
  induction ps with
  | nil =>
      intro pid? polls
      exact ⟨Or.inr ⟨rfl, rfl⟩, Nat.le_refl _, fun _ => rfl⟩
  | cons p rest ih =>
      intro pid? polls
      simp only [monitorGo]
      cases hpid : pid?.or p.projectId with
      | none =>
          refine ⟨(ih none (polls + 1)).1, ?_, ?_⟩
          · have hle := (ih none (polls + 1)).2.1
            simp only [List.length_cons]
            omega
          · intro hall
            simp only [List.all_cons, Bool.and_eq_true] at hall
            exact (ih none (polls + 1)).2.2 hall.2
      | some pid =>
          cases hhost : p.n8nHost with
          | some host =>
              refine ⟨?_, ?_, ?_⟩
              · by_cases hfin : p.finalizeOk
                · rw [if_pos hfin]
                  exact Or.inl rfl
                · rw [if_neg hfin]
                  exact Or.inr ⟨rfl, rfl⟩
              · by_cases hfin : p.finalizeOk
                · rw [if_pos hfin]
                  simp only [List.length_cons]
                  omega
                · rw [if_neg hfin]
                  simp only [List.length_cons]
                  omega
              · intro hall
                simp only [List.all_cons, Bool.and_eq_true] at hall
                rw [hhost] at hall
                simp [Option.isNone] at hall
          | none =>
              refine ⟨(ih (some pid) (polls + 1)).1, ?_, ?_⟩
              · have hle := (ih (some pid) (polls + 1)).2.1
                simp only [List.length_cons]
                omega
              · intro hall
                simp only [List.all_cons, Bool.and_eq_true] at hall
                exact (ih (some pid) (polls + 1)).2.2 hall.2

/-- Claim C2: for every provisioning attempt, the monitor's polling stops
within the wall-clock ceiling (at most `maxWaitTime / fastPollInterval`
30-second polls, i.e. 15 minutes), the final persisted status is a terminal
value (`ready`, or `timeout` with the error string recorded) and never
`deploying`; and if no iteration within the budget observes the N8N_HOST
hostname, the persisted status is exactly `timeout`. -/
theorem monitorN8nDeployment_bounded_terminal (trace : ℕ → DeployProbe) :
    ((monitorN8nDeployment trace).status = .ready
      ∨ ((monitorN8nDeployment trace).status = .timeout
          ∧ (monitorN8nDeployment trace).setupError = some timeoutErrorMsg))
    ∧ (monitorN8nDeployment trace).status ≠ .deploying
    ∧ (monitorN8nDeployment trace).polls * fastPollInterval ≤ maxWaitTime
    ∧ (((List.range (maxWaitTime / fastPollInterval)).map trace).all
          (fun p => p.n8nHost.isNone) = true →
        (monitorN8nDeployment trace).status = .timeout) := by
  have h := monitorGo_spec ((List.range (maxWaitTime / fastPollInterval)).map trace) none 0
  refine ⟨h.1, ?_, ?_, h.2.2⟩
  · rcases h.1 with hr | ht
    · intro hcon
      rw [monitorN8nDeployment] at hcon
      rw [hcon] at hr
      exact absurd hr (by decide)
    · intro hcon
      rw [monitorN8nDeployment] at hcon
      rw [hcon] at ht
      exact absurd ht.1 (by decide)
  · have hle : (monitorN8nDeployment trace).polls ≤ maxWaitTime / fastPollInterval := by
      have := h.2.1
      rw [monitorN8nDeployment]
      simpa using this
    calc (monitorN8nDeployment trace).polls * fastPollInterval
        ≤ (maxWaitTime / fastPollInterval) * fastPollInterval :=
          Nat.mul_le_mul_right _ hle
      _ ≤ maxWaitTime := Nat.div_mul_le_self _ _

theorem monitorN8nDeployment_bounded_terminal_witness :
    (monitorN8nDeployment (fun _ => ⟨none, none, true⟩)).status = .timeout :=
  (monitorN8nDeployment_bounded_terminal (fun _ => ⟨none, none, true⟩)).2.2.2 (by decide)

/-! ## Training background monitor (`startBackgroundMonitoring`,
`api/lora/train/route.ts`)

The detached monitor loop runs `while (attempts < maxAttempts)`, each
iteration sleeping 30 seconds and incrementing `attempts` before probing the
Northflank job run. A probe either throws (network failure or non-2xx,
incrementing `consecutiveErrors`, aborting with status `failed` once 5 in a
row accumulate) or returns a raw job status string; `COMPLETED`, `FAILED`
and `CANCELLED` are terminal, everything else resets `consecutiveErrors` and
continues. Exhausting the attempt budget persists `failed` with a timeout
error message. -/

def maxAttempts : ℕ := 60

def maxConsecutiveErrors : ℕ := 5

def trainTimeoutMsg : String := "Training timeout - may still be running"

/-- One status-poll observation: a thrown error with its message, or the job
run's raw status plus the optional API error field. -/
inductive JobRunProbe
  | err (msg : String)
  | ok (status : String) (errField : Option String)
  deriving DecidableEq, Repr

/-- Final persisted `loraTrainingStatus` / `loraTrainingError` and the number
of polling attempts consumed. -/
structure TrainOutcome where
  loraTrainingStatus : String
  loraTrainingError : Option String
  attempts : ℕ
  deriving DecidableEq, Repr

def probeIsErr : JobRunProbe → Bool
  | .err _ => true
  | .ok _ _ => false

/-- A probe that neither throws nor reports a terminal job status. -/
def probeIsNonTerminal : JobRunProbe → Bool
  | .err _ => false
  | .ok s _ => !(s == "COMPLETED" || s == "FAILED" || s == "CANCELLED")

/-- The monitor loop with `fuel = maxAttempts - attempts` remaining
iterations; `attempts` counts consumed attempts, `consec` the current run of
consecutive polling errors. -/
def trainGo (trace : ℕ → JobRunProbe) : ℕ → ℕ → ℕ → TrainOutcome
  | 0, attempts, _ => ⟨"failed", some trainTimeoutMsg, attempts⟩
  | fuel + 1, attempts, consec =>
    match trace attempts with
    | .err msg =>
      if maxConsecutiveErrors ≤ consec + 1 then
        ⟨"failed", some ("Monitoring failed: " ++ msg), attempts + 1⟩
      else trainGo trace fuel (attempts + 1) (consec + 1)
    | .ok status errField =>
      if status = "COMPLETED" then ⟨"completed", none, attempts + 1⟩
      else if status = "FAILED" then
        ⟨"failed", some (errField.getD "Training failed - check logs"), attempts + 1⟩
      else if status = "CANCELLED" then ⟨"cancelled", some "Cancelled by user", attempts + 1⟩
      else trainGo trace fuel (attempts + 1) 0

/-- `startBackgroundMonitoring` as a function of the probe trace. -/
def startBackgroundMonitoring (trace : ℕ → JobRunProbe) : TrainOutcome :=
  trainGo trace maxAttempts 0 0

lemma trainGo_attempts_le (trace : ℕ → JobRunProbe) :
    ∀ (fuel attempts consec : ℕ),
      (trainGo trace fuel attempts consec).attempts ≤ attempts + fuel := by
  intro fuel
  induction fuel with
  | zero => intro attempts consec; simp [trainGo]
  | succ n ih =>
      intro attempts consec
      simp only [trainGo]
      cases trace attempts with
      | err msg =>
          by_cases h : maxConsecutiveErrors ≤ consec + 1
          · simp only [h, if_true]; omega
          · simp only [h, if_false]
            calc (trainGo trace n (attempts + 1) (consec + 1)).attempts
                ≤ (attempts + 1) + n := ih (attempts + 1) (consec + 1)
              _ = attempts + (n + 1) := by omega
      | ok status errField =>
          by_cases h1 : status = "COMPLETED"
          · simp only [h1, if_true]; omega
          · simp only [h1, if_false]
            by_cases h2 : status = "FAILED"
            · simp only [h2, if_true]; omega
            · simp only [h2, if_false]
              by_cases h3 : status = "CANCELLED"
              · simp only [h3, if_true]; omega
              · simp only [h3, if_false]
                calc (trainGo trace n (attempts + 1) 0).attempts
                    ≤ (attempts + 1) + n := ih (attempts + 1) 0
                  _ = attempts + (n + 1) := by omega

lemma trainGo_status_terminal (trace : ℕ → JobRunProbe) :
    ∀ (fuel attempts consec : ℕ),
      (trainGo trace fuel attempts consec).loraTrainingStatus = "completed"
      ∨ (trainGo trace fuel attempts consec).loraTrainingStatus = "failed"
      ∨ (trainGo trace fuel attempts consec).loraTrainingStatus = "cancelled" := by
  intro fuel
  induction fuel with
  | zero => intro attempts consec; simp [trainGo]
  | succ n ih =>
      intro attempts consec
      simp only [trainGo]
      cases trace attempts with
      | err msg =>
          dsimp only
          by_cases h : maxConsecutiveErrors ≤ consec + 1
          · rw [if_pos h]
            exact Or.inr (Or.inl rfl)
          · rw [if_neg h]
            exact ih (attempts + 1) (consec + 1)
      | ok status errField =>
          dsimp only
          by_cases h1 : status = "COMPLETED"
          · rw [if_pos h1]
            exact Or.inl rfl
          · rw [if_neg h1]
            by_cases h2 : status = "FAILED"
            · rw [if_pos h2]
              exact Or.inr (Or.inl rfl)
            · rw [if_neg h2]
              by_cases h3 : status = "CANCELLED"
              · rw [if_pos h3]
                exact Or.inr (Or.inr rfl)
              · rw [if_neg h3]
                exact ih (attempts + 1) 0

lemma trainGo_timeout (trace : ℕ → JobRunProbe) :
    ∀ (fuel attempts consec : ℕ),
      ((List.range fuel).all (fun i => probeIsNonTerminal (trace (attempts + i))) = true) →
      trainGo trace fuel attempts consec = ⟨"failed", some trainTimeoutMsg, attempts + fuel⟩ := by
  intro fuel
  induction fuel with
  | zero => intro attempts consec _; simp [trainGo]
  | succ n ih =>
      intro attempts consec hall
      rw [List.range_succ_eq_map] at hall
      simp only [List.all_cons, List.all_map, Bool.and_eq_true] at hall
      obtain ⟨h0, hrest⟩ := hall
      rw [Nat.add_zero] at h0
      simp only [trainGo]
      cases hp : trace attempts with
      | err msg => rw [hp] at h0; simp [probeIsNonTerminal] at h0
      | ok status errField =>
          rw [hp] at h0
          simp only [probeIsNonTerminal, Bool.not_eq_true', Bool.or_eq_false_iff,
            beq_eq_false_iff_ne, ne_eq] at h0
          obtain ⟨⟨hc, hf⟩, hx⟩ := h0
          simp only [hc, hf, hx, if_false]
          have hshift : (List.range n).all
              (fun i => probeIsNonTerminal (trace (attempts + 1 + i))) = true := by
            simp only [List.all_eq_true] at hrest ⊢
            intro i hi
            have := hrest i hi
            simpa [Function.comp, Nat.add_comm, Nat.add_left_comm] using this
          rw [ih (attempts + 1) 0 hshift]
          congr 1
          omega

lemma trainGo_all_errors (trace : ℕ → JobRunProbe)
    (h0 : probeIsErr (trace 0) = true) (h1 : probeIsErr (trace 1) = true)
    (h2 : probeIsErr (trace 2) = true) (h3 : probeIsErr (trace 3) = true)
    (h4 : probeIsErr (trace 4) = true) :
    (startBackgroundMonitoring trace).loraTrainingStatus = "failed"
    ∧ (startBackgroundMonitoring trace).attempts = maxConsecutiveErrors := by
  have hmk : ∀ k, probeIsErr (trace k) = true → ∃ m, trace k = .err m := by
    intro k hk
    cases hp : trace k with
    | err m => exact ⟨m, rfl⟩
    | ok s e => rw [hp] at hk; simp [probeIsErr] at hk
  obtain ⟨m0, e0⟩ := hmk 0 h0
  obtain ⟨m1, e1⟩ := hmk 1 h1
  obtain ⟨m2, e2⟩ := hmk 2 h2
  obtain ⟨m3, e3⟩ := hmk 3 h3
  obtain ⟨m4, e4⟩ := hmk 4 h4
  have step : ∀ (fuel attempts consec : ℕ) (m : String), trace attempts = .err m →
      consec + 1 < maxConsecutiveErrors →
      trainGo trace (fuel + 1) attempts consec
        = trainGo trace fuel (attempts + 1) (consec + 1) := by
    intro fuel attempts consec m hm hlt
    simp only [trainGo, hm]
    rw [if_neg (by omega)]
  have abort : ∀ (fuel attempts consec : ℕ) (m : String), trace attempts = .err m →
      maxConsecutiveErrors ≤ consec + 1 →
      trainGo trace (fuel + 1) attempts consec
        = ⟨"failed", some ("Monitoring failed: " ++ m), attempts + 1⟩ := by
    intro fuel attempts consec m hm hle
    simp only [trainGo, hm]
    rw [if_pos hle]
  have hrun : startBackgroundMonitoring trace =
      ⟨"failed", some ("Monitoring failed: " ++ m4), 5⟩ := by
    unfold startBackgroundMonitoring
    rw [show maxAttempts = 59 + 1 from rfl,
      step 59 0 0 m0 e0 (by norm_num [maxConsecutiveErrors])]
    rw [show (59 : ℕ) = 58 + 1 from rfl,
      step 58 1 1 m1 e1 (by norm_num [maxConsecutiveErrors])]
    rw [show (58 : ℕ) = 57 + 1 from rfl,
      step 57 2 2 m2 e2 (by norm_num [maxConsecutiveErrors])]
    rw [show (57 : ℕ) = 56 + 1 from rfl,
      step 56 3 3 m3 e3 (by norm_num [maxConsecutiveErrors])]
    rw [show (56 : ℕ) = 55 + 1 from rfl,
      abort 55 4 4 m4 e4 (by norm_num [maxConsecutiveErrors])]
  rw [hrun]
  exact ⟨rfl, rfl⟩

/-- Claim C7: every retry loop of the training background monitor terminates
within a fixed attempt ceiling into an explicit failure state. For every
probe trace the monitor consumes at most 60 attempts and ends in one of the
terminal statuses `completed` / `failed` / `cancelled`; if every probe in
the 60-attempt budget is a non-terminal job status the result is `failed`
with the timeout error message; and five consecutive polling errors abort
the loop with status `failed` after exactly 5 attempts. -/
theorem startBackgroundMonitoring_bounded (trace : ℕ → JobRunProbe) :
    (startBackgroundMonitoring trace).attempts ≤ maxAttempts
    ∧ ((startBackgroundMonitoring trace).loraTrainingStatus = "completed"
        ∨ (startBackgroundMonitoring trace).loraTrainingStatus = "failed"
        ∨ (startBackgroundMonitoring trace).loraTrainingStatus = "cancelled")
    ∧ ((List.range maxAttempts).all (fun i => probeIsNonTerminal (trace i)) = true →
        (startBackgroundMonitoring trace).loraTrainingStatus = "failed"
        ∧ (startBackgroundMonitoring trace).loraTrainingError = some trainTimeoutMsg)
    ∧ (probeIsErr (trace 0) = true → probeIsErr (trace 1) = true →
        probeIsErr (trace 2) = true → probeIsErr (trace 3) = true →
        probeIsErr (trace 4) = true →
        (startBackgroundMonitoring trace).loraTrainingStatus = "failed"
        ∧ (startBackgroundMonitoring trace).attempts = maxConsecutiveErrors) := by
  refine ⟨?_, trainGo_status_terminal trace maxAttempts 0 0, ?_, ?_⟩
  · have := trainGo_attempts_le trace maxAttempts 0 0
    simpa [startBackgroundMonitoring] using this
  · intro hall
    have hall0 : (List.range maxAttempts).all
        (fun i => probeIsNonTerminal (trace (0 + i))) = true := by
      simpa using hall
    have := trainGo_timeout trace maxAttempts 0 0 hall0
    rw [startBackgroundMonitoring, this]
    exact ⟨rfl, rfl⟩
  · intro h0 h1 h2 h3 h4
    exact trainGo_all_errors trace h0 h1 h2 h3 h4

theorem startBackgroundMonitoring_bounded_witness :
    ((startBackgroundMonitoring (fun _ => .ok "RUNNING" none)).loraTrainingStatus = "failed"
      ∧ (startBackgroundMonitoring
          (fun _ => .ok "RUNNING" none)).loraTrainingError = some trainTimeoutMsg)
    ∧ ((startBackgroundMonitoring (fun _ => .err "boom")).loraTrainingStatus = "failed"
      ∧ (startBackgroundMonitoring (fun _ => .err "boom")).attempts = maxConsecutiveErrors) :=
  ⟨(startBackgroundMonitoring_bounded (fun _ => .ok "RUNNING" none)).2.2.1 (by decide),
   (startBackgroundMonitoring_bounded (fun _ => .err "boom")).2.2.2
     (by decide) (by decide) (by decide) (by decide) (by decide)⟩

/-! ## Memory-add handlers and the gating fallback
(`api/memories/route.ts` POST, n8n conversation webhook POST)

Both handlers call the external Gating Service; a thrown fetch error,
timeout or non-2xx response is caught and replaced by the conservative
fallback `{routing: review, valence: neutral, scores: {alignment: 0.5}}`.
The embedding step is wrapped in its own try/catch and its failure is
non-fatal. External calls are modelled as explicit call-result inputs. -/

/-- Result of an external HTTP call: a value, or a thrown error (network
failure, timeout, or non-2xx turned into a throw). -/
inductive CallResult (α : Type)
  | ok (value : α)
  | failed (msg : String)
  deriving DecidableEq, Repr

/-- The `{routing, valence, scores.alignment, status}` tuple acted on by the
handlers. -/
structure GatingData where
  routing : String
  valence : String
  alignment : ℚ
  status : Option String
  deriving DecidableEq, Repr

/-- The fallback value substituted when the gating call fails. -/
def fallbackGatingData : GatingData :=
  { routing := "review", valence := "neutral", alignment := 1 / 2, status := some "fallback" }

/-- The try/catch around the gating call: a failed call becomes the
fallback, a successful call is used as-is. -/
def resolveGating : CallResult GatingData → GatingData
  | .ok g => g
  | .failed _ => fallbackGatingData

/-- JSON response of a memory-add style handler. -/
structure PostResponse where
  httpStatus : ℕ
  success : Bool
  routing : Option String
  valence : Option String
  alignment : Option ℚ
  error : Option String
  deriving DecidableEq, Repr

/-- Side effects of a memory-add style handler on the stores. -/
structure PostEffects where
  embeddingRowInserted : Bool
  goodCountIncrement : ℕ
  badCountIncrement : ℕ
  deriving DecidableEq, Repr

def noEffects : PostEffects :=
  { embeddingRowInserted := false, goodCountIncrement := 0, badCountIncrement := 0 }

/-- `POST /api/memories`: auth check, content validation, user/connection
lookups, gating call with fallback, then the embedding + insert step in its
own try/catch (failure is non-critical), then channel-count updates and the
success response. `ollamaConfigured` models `OLLAMA_EXTERNAL_URL` being
set; its absence throws outside the embedding try/catch and is caught by
the outer handler as a 500. `insertOk` models the INSERT succeeding. -/
def memoriesRoutePOST (authed contentNonempty userReady connOk : Bool)
    (gatingCall : CallResult GatingData) (ollamaConfigured : Bool)
    (embeddingCall : CallResult (List ℚ)) (insertOk : Bool) :
    PostResponse × PostEffects :=
  if !authed then
    (⟨401, false, none, none, none, some "Unauthorized"⟩, noEffects)
  else if !contentNonempty then
    (⟨400, false, none, none, none, some "Content is required"⟩, noEffects)
  else if !userReady then
    (⟨400, false, none, none, none, some "Database not initialized"⟩, noEffects)
  else if !connOk then
    (⟨500, false, none, none, none, some "Database connection failed"⟩, noEffects)
  else
    let gatingData := resolveGating gatingCall
    if !ollamaConfigured then
      (⟨500, false, none, none, none, some "OLLAMA_EXTERNAL_URL not configured"⟩, noEffects)
    else
      let inserted :=
        match embeddingCall with
        | .ok _ => insertOk
        | .failed _ => false
      (⟨200, true, some gatingData.routing, some gatingData.valence,
          some gatingData.alignment, none⟩,
       { embeddingRowInserted := inserted
         goodCountIncrement := if gatingData.routing == "good" then 1 else 0
         badCountIncrement := if gatingData.routing == "bad" then 1 else 0 })

/-- The n8n conversation webhook POST: payload validation, user lookup,
connection lookup, gating call with the same fallback, optional embedding
step (skipped when Ollama is unconfigured, failure inside its try/catch is
non-critical), success response. -/
def webhookConversationPOST (validPayload userFound userReady connOk : Bool)
    (gatingCall : CallResult GatingData) (ollamaConfigured embeddingOk : Bool) :
    PostResponse × PostEffects :=
  if !validPayload then
    (⟨400, false, none, none, none, some "Missing required fields: user_id, message"⟩, noEffects)
  else if !userFound then
    (⟨404, false, none, none, none, some "User not found"⟩, noEffects)
  else if !userReady then
    (⟨400, false, none, none, none, some "User database not initialized"⟩, noEffects)
  else if !connOk then
    (⟨500, false, none, none, none, some "Database connection failed"⟩, noEffects)
  else
    let gatingResult := resolveGating gatingCall
    (⟨200, true, some gatingResult.routing, some gatingResult.valence,
        some gatingResult.alignment, none⟩,
     { embeddingRowInserted := ollamaConfigured && embeddingOk
       goodCountIncrement := if gatingResult.routing == "good" then 1 else 0
       badCountIncrement := if gatingResult.routing == "bad" then 1 else 0 })

/-- Claim C3: a failed gating call never propagates past the handler. Both
handlers behave exactly as if the gating service had returned the
conservative fallback `{routing: review, valence: neutral,
alignment: 0.5}`, and on the happy path the submitted text still yields a
success response routed to `review`. -/
theorem gatingFailure_uses_fallback (msg : String)
    (authed contentNonempty userReady connOk ollamaConfigured insertOk : Bool)
    (embeddingCall : CallResult (List ℚ))
    (validPayload userFound embeddingOk : Bool) :
    memoriesRoutePOST authed contentNonempty userReady connOk (.failed msg)
        ollamaConfigured embeddingCall insertOk
      = memoriesRoutePOST authed contentNonempty userReady connOk
          (.ok fallbackGatingData) ollamaConfigured embeddingCall insertOk
    ∧ webhookConversationPOST validPayload userFound userReady connOk (.failed msg)
        ollamaConfigured embeddingOk
      = webhookConversationPOST validPayload userFound userReady connOk
          (.ok fallbackGatingData) ollamaConfigured embeddingOk
    ∧ (memoriesRoutePOST true true true true (.failed msg) true
        embeddingCall insertOk).1
      = ⟨200, true, some "review", some "neutral", some (1 / 2), none⟩
    ∧ (webhookConversationPOST true true true true (.failed msg) true embeddingOk).1
      = ⟨200, true, some "review", some "neutral", some (1 / 2), none⟩ := by
  refine ⟨rfl, rfl, ?_, rfl⟩
  cases embeddingCall <;> rfl

/-- Claim C9: in the memory-add handlers, a failure of the embedding step —
unreachable embedding service or a failed INSERT into `memory_embeddings` —
is non-fatal: the handler still returns a success response carrying the
gating routing result, even though no `memory_embeddings` row was stored. -/
theorem embeddingFailure_nonfatal (gatingCall : CallResult GatingData)
    (msg : String) (emb : List ℚ) :
    ((memoriesRoutePOST true true true true gatingCall true (.failed msg) true).1.success
        = true
      ∧ (memoriesRoutePOST true true true true gatingCall true
          (.failed msg) true).1.routing = some (resolveGating gatingCall).routing
      ∧ (memoriesRoutePOST true true true true gatingCall true
          (.failed msg) true).2.embeddingRowInserted = false)
    ∧ ((memoriesRoutePOST true true true true gatingCall true (.ok emb) false).1.success
        = true
      ∧ (memoriesRoutePOST true true true true gatingCall true
          (.ok emb) false).2.embeddingRowInserted = false)
    ∧ ((webhookConversationPOST true true true true gatingCall true false).1.success
        = true
      ∧ (webhookConversationPOST true true true true gatingCall true
          false).2.embeddingRowInserted = false) := by
  refine ⟨⟨rfl, rfl, rfl⟩, ⟨rfl, rfl⟩, rfl, ?_⟩
  simp [webhookConversationPOST]

/-! ## Memory delete (`DELETE /api/memories`, `VectorMemory.deleteMemory`)

The delete statement is
`DELETE FROM memory_embeddings WHERE id = $1 AND user_id = $2 RETURNING id`:
both the memory id and the authenticated tenant's user id appear in the
WHERE clause, and a zero row count yields a 404. -/

/-- A `memory_embeddings` row (the columns the delete logic touches). -/
structure EmbeddingRow where
  id : String
  userId : String
  content : String
  deriving DecidableEq, Repr

structure DeleteResponse where
  httpStatus : ℕ
  success : Bool
  error : Option String
  deriving DecidableEq, Repr

/-- The `DELETE ... WHERE id = $1 AND user_id = $2` statement: remaining
table and deleted-row count. -/
def deleteWhereIdAndUser (table : List EmbeddingRow) (memoryId uid : String) :
    List EmbeddingRow × ℕ :=
  (table.filter (fun r => !(r.id == memoryId && r.userId == uid)),
   (table.filter (fun r => r.id == memoryId && r.userId == uid)).length)

/-- `DELETE /api/memories`: auth check, user-ready check, id parameter
check, connection lookup, then the tenant-scoped delete; `rowCount = 0`
yields the 404 "Memory not found or access denied" response. -/
def memoriesRouteDELETE (authed userReady : Bool) (memoryId : Option String)
    (connOk : Bool) (uid : String) (table : List EmbeddingRow) :
    DeleteResponse × List EmbeddingRow :=
  if !authed then (⟨401, false, some "Unauthorized"⟩, table)
  else if !userReady then (⟨400, false, some "Database not initialized"⟩, table)
  else
    match memoryId with
    | none => (⟨400, false, some "Memory ID required"⟩, table)
    | some mid =>
      if !connOk then (⟨500, false, some "Database connection failed"⟩, table)
      else
        let res := deleteWhereIdAndUser table mid uid
        if res.2 = 0 then (⟨404, false, some "Memory not found or access denied"⟩, res.1)
        else (⟨200, true, none⟩, res.1)

/-- Claim C5: a delete request whose id does not match any row owned by the
requesting tenant deletes zero rows, answers 404 "Memory not found or
access denied", and leaves the table unchanged; and any delete, matching or
not, leaves every row of other tenants untouched. -/
theorem memoriesRouteDELETE_tenant_isolation (table : List EmbeddingRow)
    (mid uid : String) :
    (table.all (fun r => !(r.id == mid && r.userId == uid)) = true →
      (memoriesRouteDELETE true true (some mid) true uid table).1
        = ⟨404, false, some "Memory not found or access denied"⟩
      ∧ (memoriesRouteDELETE true true (some mid) true uid table).2 = table)
    ∧ (memoriesRouteDELETE true true (some mid) true uid table).2.filter
        (fun r => !(r.userId == uid))
      = table.filter (fun r => !(r.userId == uid)) := by
  constructor
  · intro hall
    have hcount : (table.filter (fun r => r.id == mid && r.userId == uid)).length = 0 := by
      rw [List.length_eq_zero, List.filter_eq_nil_iff]
      intro r hr
      have h := List.all_eq_true.mp hall r hr
      simp at h ⊢
      tauto
    constructor
    · simp [memoriesRouteDELETE, deleteWhereIdAndUser, hcount]
    · simp [memoriesRouteDELETE, deleteWhereIdAndUser, hcount]
      intro r hr
      have h := List.all_eq_true.mp hall r hr
      simp at h
      tauto
  · by_cases hz : (table.filter (fun r => r.id == mid && r.userId == uid)).length = 0
    · simp [memoriesRouteDELETE, deleteWhereIdAndUser, hz, List.filter_filter]
      apply List.filter_congr
      intro r hr
      cases h1 : r.id == mid <;> cases h2 : r.userId == uid <;> simp [h1, h2]
    · simp [memoriesRouteDELETE, deleteWhereIdAndUser, hz, List.filter_filter]
      apply List.filter_congr
      intro r hr
      cases h1 : r.id == mid <;> cases h2 : r.userId == uid <;> simp [h1, h2]

/-- Concrete table for the C5 witness: one row owned by another tenant. -/
def exTableC5 : List EmbeddingRow :=
  [{ id := "m1", userId := "alice", content := "hello" }]

theorem memoriesRouteDELETE_tenant_isolation_witness :
    (memoriesRouteDELETE true true (some "m1") true "bob" exTableC5).1
      = ⟨404, false, some "Memory not found or access denied"⟩
    ∧ (memoriesRouteDELETE true true (some "m1") true "bob" exTableC5).2 = exTableC5 :=
  (memoriesRouteDELETE_tenant_isolation exTableC5 "m1" "bob").1 (by decide)

/-! ## Memory fetch (`GET /api/memories`, `VectorMemory.searchMemories` /
`getAllMemories`)

With a search query the handler runs
`SELECT ... WHERE user_id = $2 ORDER BY embedding <=> $1::vector LIMIT 20`;
without one it runs
`SELECT ... WHERE user_id = $1 ORDER BY created_at DESC LIMIT 100`.
The database's cosine-distance operator `<=>` is modelled as an abstract
distance function parameter; `ORDER BY` is modelled as a sort by the
corresponding key (ties broken arbitrarily, as by the database). -/

/-- A `memory_embeddings` row as read by the fetch queries. -/
structure StoredMemory where
  id : String
  userId : String
  content : String
  embedding : List ℚ
  createdAt : ℕ
  deriving DecidableEq, Repr

/-- Semantic-search branch: tenant filter, ascending order by the distance
between the stored embedding and the query embedding, `LIMIT 20`. -/
def searchMemoriesQuery (dist : List ℚ → List ℚ → ℚ) (table : List StoredMemory)
    (uid : String) (queryEmbedding : List ℚ) : List StoredMemory :=
  (List.insertionSort
    (fun a b => dist a.embedding queryEmbedding ≤ dist b.embedding queryEmbedding)
    (table.filter (fun r => r.userId == uid))).take 20

/-- No-query branch: tenant filter, `created_at` descending, `LIMIT 100`. -/
def getAllMemoriesQuery (table : List StoredMemory) (uid : String) :
    List StoredMemory :=
  (List.insertionSort (fun a b => b.createdAt ≤ a.createdAt)
    (table.filter (fun r => r.userId == uid))).take 100

/-- `GET /api/memories`: semantic search when a `query` parameter (already
embedded) is present, newest-first listing otherwise. -/
def memoriesRouteGET (dist : List ℚ → List ℚ → ℚ) (table : List StoredMemory)
    (uid : String) (queryEmbedding : Option (List ℚ)) : List StoredMemory :=
  match queryEmbedding with
  | some q => searchMemoriesQuery dist table uid q
  | none => getAllMemoriesQuery table uid

lemma mem_searchMemoriesQuery_userId (dist : List ℚ → List ℚ → ℚ)
    (table : List StoredMemory) (uid : String) (q : List ℚ) :
    (searchMemoriesQuery dist table uid q).all (fun r => r.userId == uid) = true := by
  rw [List.all_eq_true]
  intro r hr
  have h1 : r ∈ List.insertionSort
      (fun a b => dist a.embedding q ≤ dist b.embedding q)
      (table.filter (fun x => x.userId == uid)) := List.mem_of_mem_take hr
  have h2 : r ∈ table.filter (fun x => x.userId == uid) :=
    (List.perm_insertionSort _ _).mem_iff.mp h1
  exact (List.mem_filter.mp h2).2

lemma mem_getAllMemoriesQuery_userId (table : List StoredMemory) (uid : String) :
    (getAllMemoriesQuery table uid).all (fun r => r.userId == uid) = true := by
  rw [List.all_eq_true]
  intro r hr
  have h1 : r ∈ List.insertionSort (fun a b => b.createdAt ≤ a.createdAt)
      (table.filter (fun x => x.userId == uid)) := List.mem_of_mem_take hr
  have h2 : r ∈ table.filter (fun x => x.userId == uid) :=
    (List.perm_insertionSort _ _).mem_iff.mp h1
  exact (List.mem_filter.mp h2).2

/-- Claim C10: the fetch operation returns only rows of the authenticated
tenant and is bounded: with a query at most 20 rows in ascending order of
embedding distance to the query, without one at most 100 rows in descending
`created_at` order. -/
theorem memoriesRouteGET_scoped_bounded_ordered (dist : List ℚ → List ℚ → ℚ)
    (table : List StoredMemory) (uid : String) (q : List ℚ) :
    (memoriesRouteGET dist table uid (some q)).all (fun r => r.userId == uid) = true
    ∧ (memoriesRouteGET dist table uid none).all (fun r => r.userId == uid) = true
    ∧ (memoriesRouteGET dist table uid (some q)).length ≤ 20
    ∧ (memoriesRouteGET dist table uid none).length ≤ 100
    ∧ (memoriesRouteGET dist table uid (some q)).Pairwise
        (fun a b => dist a.embedding q ≤ dist b.embedding q)
    ∧ (memoriesRouteGET dist table uid none).Pairwise
        (fun a b => b.createdAt ≤ a.createdAt) := by
  refine ⟨mem_searchMemoriesQuery_userId dist table uid q,
    mem_getAllMemoriesQuery_userId table uid, ?_, ?_, ?_, ?_⟩
  · simp [memoriesRouteGET, searchMemoriesQuery]
  · simp [memoriesRouteGET, getAllMemoriesQuery]
  · haveI : IsTotal StoredMemory
        (fun a b => dist a.embedding q ≤ dist b.embedding q) :=
      ⟨fun a b => le_total _ _⟩
    haveI : IsTrans StoredMemory
        (fun a b => dist a.embedding q ≤ dist b.embedding q) :=
      ⟨fun _ _ _ hab hbc => le_trans hab hbc⟩
    have hs : (List.insertionSort
        (fun a b => dist a.embedding q ≤ dist b.embedding q)
        (table.filter (fun x => x.userId == uid))).Sorted
        (fun a b => dist a.embedding q ≤ dist b.embedding q) :=
      List.sorted_insertionSort _ _
    exact hs.sublist (List.take_sublist _ _)
  · haveI : IsTotal StoredMemory (fun a b => b.createdAt ≤ a.createdAt) :=
      ⟨fun a b => le_total _ _⟩
    haveI : IsTrans StoredMemory (fun a b => b.createdAt ≤ a.createdAt) :=
      ⟨fun _ _ _ hab hbc => le_trans hbc hab⟩
    have hs : (List.insertionSort (fun a b => b.createdAt ≤ a.createdAt)
        (table.filter (fun x => x.userId == uid))).Sorted
        (fun a b => b.createdAt ≤ a.createdAt) :=
      List.sorted_insertionSort _ _
    exact hs.sublist (List.take_sublist _ _)

/-! ## Provisioning de-duplication (`runningMonitors`,
`provision-northflank` POST)

For one tenant, the handler executes, in order: the membership check
`runningMonitors.has(userId)` (answering "Monitoring already in progress"
when it hits), an awaited database lookup of the existing project, the
`runningMonitors.add(userId)` call, and the template start + monitoring
kickoff. The awaited lookup sits between the check and the add, so two
concurrently handled requests for the same tenant interleave at these await
points. Each request is modelled as a four-step program over the shared
set-membership bit; a scheduler word interleaves the two requests
(`true` = a step of request A, `false` = a step of request B); steps of a
finished request are no-ops. The model covers the window before any
`runningMonitors.delete` runs. -/

structure RaceState where
  /-- whether the tenant id is in `runningMonitors` -/
  inSet : Bool
  /-- program counter of request A: 0 check, 1 lookup, 2 add, 3 start, 4 done -/
  aPC : ℕ
  bPC : ℕ
  /-- request A reached `startSundayTemplate` + monitoring -/
  aStarted : Bool
  bStarted : Bool
  /-- request A answered "Monitoring already in progress for this user" -/
  aInProgressResp : Bool
  bInProgressResp : Bool
  deriving DecidableEq, Repr

def raceInit : RaceState :=
  { inSet := false, aPC := 0, bPC := 0, aStarted := false, bStarted := false,
    aInProgressResp := false, bInProgressResp := false }

def raceStepA (s : RaceState) : RaceState :=
  if s.aPC = 0 then
    if s.inSet then { s with aPC := 4, aInProgressResp := true }
    else { s with aPC := 1 }
  else if s.aPC = 1 then { s with aPC := 2 }
  else if s.aPC = 2 then { s with aPC := 3, inSet := true }
  else if s.aPC = 3 then { s with aPC := 4, aStarted := true }
  else s

def raceStepB (s : RaceState) : RaceState :=
  if s.bPC = 0 then
    if s.inSet then { s with bPC := 4, bInProgressResp := true }
    else { s with bPC := 1 }
  else if s.bPC = 1 then { s with bPC := 2 }
  else if s.bPC = 2 then { s with bPC := 3, inSet := true }
  else if s.bPC = 3 then { s with bPC := 4, bStarted := true }
  else s

def raceStep (s : RaceState) (isA : Bool) : RaceState :=
  if isA then raceStepA s else raceStepB s

/-- Run two same-tenant provisioning requests under a scheduler word. -/
def raceRun (sched : List Bool) : RaceState :=
  sched.foldl raceStep raceInit

/-- Inductive invariant: a request that answered "already in progress" had
its check short-circuit (program counter jumped to done without passing the
start step), and a request that started the workflow has finished. -/
def respInv (s : RaceState) : Prop :=
  (s.aInProgressResp = true → s.aPC = 4 ∧ s.aStarted = false)
  ∧ (s.aStarted = true → s.aPC = 4)
  ∧ (s.bInProgressResp = true → s.bPC = 4 ∧ s.bStarted = false)
  ∧ (s.bStarted = true → s.bPC = 4)

/-- Inductive invariant for the window after request A completed its add
while request B had not yet taken a step: B never starts, and if B finished
it answered "already in progress". -/
def dedupInv (s : RaceState) : Prop :=
  s.inSet = true ∧ s.bStarted = false ∧ (s.bPC = 0 ∨ s.bPC = 4)
    ∧ (s.bPC = 4 → s.bInProgressResp = true)

lemma raceStepA_preserves_respInv (s : RaceState) (h : respInv s) :
    respInv (raceStepA s) := by
  obtain ⟨h1, h2, h3, h4⟩ := h
  unfold raceStepA
  split_ifs with p0 pin p1 p2 p3 <;>
    refine ⟨?_, ?_, ?_, ?_⟩ <;> intro hx <;> simp_all

lemma raceStepB_preserves_respInv (s : RaceState) (h : respInv s) :
    respInv (raceStepB s) := by
  obtain ⟨h1, h2, h3, h4⟩ := h
  unfold raceStepB
  split_ifs with p0 pin p1 p2 p3 <;>
    refine ⟨?_, ?_, ?_, ?_⟩ <;> intro hx <;> simp_all

lemma raceStep_preserves_respInv (s : RaceState) (c : Bool) (h : respInv s) :
    respInv (raceStep s c) := by
  cases c with
  | true => exact raceStepA_preserves_respInv s h
  | false => exact raceStepB_preserves_respInv s h

lemma raceStepA_preserves_dedupInv (s : RaceState) (h : dedupInv s) :
    dedupInv (raceStepA s) := by
  obtain ⟨h1, h2, h3, h4⟩ := h
  unfold raceStepA
  split_ifs with p0 pin p1 p2 <;>
    exact ⟨by simp_all, by simp_all, by simp_all, by simp_all⟩

lemma raceStepB_preserves_dedupInv (s : RaceState) (h : dedupInv s) :
    dedupInv (raceStepB s) := by
  obtain ⟨h1, h2, h3, h4⟩ := h
  unfold raceStepB
  split_ifs with p0 pin p1 p2 <;>
    refine ⟨?_, ?_, ?_, ?_⟩ <;> simp_all

lemma raceStep_preserves_dedupInv (s : RaceState) (c : Bool) (h : dedupInv s) :
    dedupInv (raceStep s c) := by
  cases c with
  | true => exact raceStepA_preserves_dedupInv s h
  | false => exact raceStepB_preserves_dedupInv s h

lemma foldl_raceStep_preserves (P : RaceState → Prop)
    (hstep : ∀ (s : RaceState) (c : Bool), P s → P (raceStep s c)) :
    ∀ (sched : List Bool) (s : RaceState), P s →
      P (sched.foldl raceStep s) := by
  intro sched
  induction sched with
  | nil => intro s hs; exact hs
  | cons c rest ih =>
      intro s hs
      exact ih (raceStep s c) (hstep s c hs)

/-- Claim C6 is refuted as stated: under the schedule that alternates the
two requests step by step, both requests pass the `runningMonitors` check
before either performs the add, so both start the template deployment and
neither observes the "already in progress" response. -/
theorem runningMonitors_dedup_counterexample :
    (raceRun [true, false, true, false, true, false, true, false]).aStarted = true
    ∧ (raceRun [true, false, true, false, true, false, true, false]).bStarted = true
    ∧ (raceRun [true, false, true, false, true, false, true, false]).aInProgressResp = false
    ∧ (raceRun [true, false, true, false, true, false, true, false]).bInProgressResp = false := by
  decide

/-- Claim C6, amended: under every interleaving, a request that observes the
"already in progress" response never starts the workflow; and whenever the
second request's membership check runs only after the first request has
added the tenant id to `runningMonitors` (modelled as the first request
completing its check, lookup and add steps before the second request's
first step, within the window before the monitor's delete), the second
request never starts the workflow — and if its handler completes, it
answered "already in progress". -/
theorem runningMonitors_dedup_amended :
    (∀ sched : List Bool,
      ((raceRun sched).aInProgressResp = true → (raceRun sched).aStarted = false)
      ∧ ((raceRun sched).bInProgressResp = true → (raceRun sched).bStarted = false))
    ∧ (∀ rest : List Bool,
      (raceRun (true :: true :: true :: rest)).bStarted = false
      ∧ ((raceRun (true :: true :: true :: rest)).bPC = 4 →
          (raceRun (true :: true :: true :: rest)).bInProgressResp = true)) := by
  constructor
  · intro sched
    have h : respInv (raceRun sched) :=
      foldl_raceStep_preserves respInv raceStep_preserves_respInv sched raceInit
        (by simp [respInv, raceInit])
    exact ⟨fun ha => (h.1 ha).2, fun hb => (h.2.2.1 hb).2⟩
  · intro rest
    have hpre : raceRun (true :: true :: true :: rest)
        = rest.foldl raceStep (raceStep (raceStep (raceStep raceInit true) true) true) := by
      rfl
    have h : dedupInv (rest.foldl raceStep
        (raceStep (raceStep (raceStep raceInit true) true) true)) :=
      foldl_raceStep_preserves dedupInv raceStep_preserves_dedupInv rest _
        (by simp [dedupInv, raceStep, raceStepA, raceInit])
    rw [hpre]
    exact ⟨h.2.1, h.2.2.2⟩

theorem runningMonitors_dedup_amended_witness :
    (raceRun [true, true, true, false]).bStarted = false
    ∧ (raceRun [true, true, true, false]).bInProgressResp = true :=
  ⟨(runningMonitors_dedup_amended.2 [false]).1,
   (runningMonitors_dedup_amended.2 [false]).2 (by decide)⟩

end SevenOn
